import Mathlib

/-!
# Camera controller and scene composer of `Final_Michael_Swift.cpp`

A shallow embedding of the camera globals, the GLFW callbacks
(`key_callback`, `mouse_button_callback`, `cursor_position_callback`,
`scroll_callback`), the per-frame `TransformCamera`, the commands
`initiateCamera` and `spinCamera`, and the model matrices built by the frame
loop of `main`.

Conventions of the embedding:
* `GLfloat` and `double` values are exact reals (`ℝ`); `sinf`, `cosf`, `sin`,
  `cos` are `Real.sin` and `Real.cos`; `glm::pi<float>()` is `Real.pi`;
  `glm::radians d = d * (π / 180)`.  The program's own constant
  `PI = 3.14159` (used by `toRadians`) is kept as the decimal it is.
* The file-scope globals are the fields of `State`; every callback is a
  function `State → … → State`.
* `glfwGetTime()` is an input: `spinCamera` reads the clock twice, so it takes
  the two readings as arguments.
-/

namespace ChairCamera

noncomputable section

/-! ## Vectors (`glm::vec3`) -/

/-- A `glm::vec3` with exact real components. -/
structure Vec3 where
  x : ℝ
  y : ℝ
  z : ℝ

namespace Vec3

/-- Component-wise sum, `a + b`. -/
def add (a b : Vec3) : Vec3 := ⟨a.x + b.x, a.y + b.y, a.z + b.z⟩

/-- Component-wise difference, `a - b`. -/
def sub (a b : Vec3) : Vec3 := ⟨a.x - b.x, a.y - b.y, a.z - b.z⟩

/-- The function `glm::dot`. -/
def dot (a b : Vec3) : ℝ := a.x * b.x + a.y * b.y + a.z * b.z

/-- The function `glm::cross`. -/
def cross (a b : Vec3) : Vec3 :=
  ⟨a.y * b.z - b.y * a.z, a.z * b.x - b.z * a.x, a.x * b.y - b.x * a.y⟩

/-- The function `glm::length`. -/
def length (v : Vec3) : ℝ := Real.sqrt (dot v v)

/-- The function `glm::distance`: the Euclidean distance of two points. -/
def distance (a b : Vec3) : ℝ := length (sub a b)

/-- The function `glm::normalize` over exact reals, `v / |v|`. -/
def normalize (v : Vec3) : Vec3 := ⟨v.x / length v, v.y / length v, v.z / length v⟩

/-- Scalar times vector, `k * v`. -/
def smul (k : ℝ) (v : Vec3) : Vec3 := ⟨k * v.x, k * v.y, k * v.z⟩

/-- Three vectors are mutually orthonormal: each has length 1 and the three
pairwise dot products are 0. -/
def Orthonormal (d r u : Vec3) : Prop :=
  length d = 1 ∧ length r = 1 ∧ length u = 1 ∧ dot d r = 0 ∧ dot d u = 0 ∧ dot r u = 0

end Vec3

/-- The function `glm::clamp (x, minVal, maxVal) = min (max (x, minVal), maxVal)`. -/
def clamp (x lo hi : ℝ) : ℝ := min (max x lo) hi

/-- The function `glm::radians`: degrees to radians. -/
def radians (degrees : ℝ) : ℝ := degrees * (Real.pi / 180)

/-! ## GLFW constants used by the program -/

/-- Action code `GLFW_RELEASE`. -/
def GLFW_RELEASE : Int := 0
/-- Action code `GLFW_PRESS`. -/
def GLFW_PRESS : Int := 1
/-- Key code `GLFW_KEY_ESCAPE`. -/
def GLFW_KEY_ESCAPE : Int := 256
/-- Key code `GLFW_KEY_LEFT_ALT`. -/
def GLFW_KEY_LEFT_ALT : Int := 342
/-- Key code `GLFW_KEY_F`. -/
def GLFW_KEY_F : Int := 70
/-- Key code `GLFW_KEY_S`. -/
def GLFW_KEY_S : Int := 83
/-- Button code `GLFW_MOUSE_BUTTON_LEFT`. -/
def GLFW_MOUSE_BUTTON_LEFT : Int := 0

/-! ## The file-scope globals -/

/-- The mutable globals of the program that the callbacks read and write. -/
structure State where
  fov : ℝ
  cameraPosition : Vec3
  target : Vec3
  cameraDirection : Vec3
  worldUp : Vec3
  cameraRight : Vec3
  cameraUp : Vec3
  CameraFront : Vec3
  keys : Int → Bool
  mouseButtons : Int → Bool
  isPanning : Bool
  isOrbiting : Bool
  radius : ℝ
  rawYaw : ℝ
  rawPitch : ℝ
  degYaw : ℝ
  degPitch : ℝ
  lastX : ℝ
  lastY : ℝ
  xChange : ℝ
  yChange : ℝ
  firstMouseMove : Bool
  windowShouldClose : Bool

/-- The initial `cameraPosition`, `glm::vec3(0.0f, 1.0f, 4.0f)`. -/
def defaultPosition : Vec3 := ⟨0, 1, 4⟩

/-- The initial `target`, `glm::vec3(-0.375f, 0.5f, 0.4)`. -/
def defaultTarget : Vec3 := ⟨-0.375, 0.5, 0.4⟩

/-- The initial `cameraDirection = normalize(cameraPosition - target)`. -/
def startDirection : Vec3 := Vec3.normalize (Vec3.sub defaultPosition defaultTarget)

/-- The initial `cameraRight = normalize(cross(worldUp, cameraDirection))`. -/
def startRight : Vec3 := Vec3.normalize (Vec3.cross ⟨0, 1, 0⟩ startDirection)

/-- The initial `cameraUp = normalize(cross(cameraDirection, cameraRight))`. -/
def startUp : Vec3 := Vec3.normalize (Vec3.cross startDirection startRight)

/-- The globals as their initialisers leave them at startup (globals without an
initialiser are zero-initialised). -/
def init : State where
  fov := 45.0
  cameraPosition := defaultPosition
  target := defaultTarget
  cameraDirection := startDirection
  worldUp := ⟨0, 1, 0⟩
  cameraRight := startRight
  cameraUp := startUp
  CameraFront := ⟨0, 0, -1⟩
  keys := fun _ => false
  mouseButtons := fun _ => false
  isPanning := false
  isOrbiting := false
  radius := 3.0
  rawYaw := 0
  rawPitch := 0
  degYaw := 0
  degPitch := 0
  lastX := 320
  lastY := 240
  xChange := 0
  yChange := 0
  firstMouseMove := true
  windowShouldClose := false

/-! ## Callbacks -/

/-- The callback `key_callback`: escape pressed asks the window to close; a press
sets `keys[key]`, a release clears it, any other action leaves it. -/
def key_callback (s : State) (key action : Int) : State :=
  let close := if key = GLFW_KEY_ESCAPE ∧ action = GLFW_PRESS then true else s.windowShouldClose
  let keys1 : Int → Bool :=
    if action = GLFW_PRESS then fun k => if k = key then true else s.keys k
    else if action = GLFW_RELEASE then fun k => if k = key then false else s.keys k
    else s.keys
  { s with windowShouldClose := close, keys := keys1 }

/-- The callback `mouse_button_callback`. -/
def mouse_button_callback (s : State) (button action : Int) : State :=
  let buttons1 : Int → Bool :=
    if action = GLFW_PRESS then fun b => if b = button then true else s.mouseButtons b
    else if action = GLFW_RELEASE then fun b => if b = button then false else s.mouseButtons b
    else s.mouseButtons
  { s with mouseButtons := buttons1 }

/-- The callback `scroll_callback`: the guarded subtraction followed by the two
saturating assignments. -/
def scroll_callback (s : State) (_xoffset yoffset : ℝ) : State :=
  let fov1 := if 1.0 ≤ s.fov ∧ s.fov ≤ 55.0 then s.fov - yoffset * 0.01 else s.fov
  let fov2 := if fov1 < 1.0 then 1.0 else fov1
  let fov3 := if fov2 > 55.0 then 55.0 else fov2
  { s with fov := fov3 }

/-- The callback `cursor_position_callback`. -/
def cursor_position_callback (s : State) (xpos ypos : ℝ) : State :=
  let lastX0 := if s.firstMouseMove then xpos else s.lastX
  let lastY0 := if s.firstMouseMove then ypos else s.lastY
  let xChange := xpos - lastX0
  let yChange := lastY0 - ypos
  let s1 : State :=
    { s with firstMouseMove := false, xChange := xChange, yChange := yChange,
             lastX := xpos, lastY := ypos }
  if s.isOrbiting then
    let rawYaw := s.rawYaw + xChange
    let rawPitch := s.rawPitch + yChange
    let degYaw := radians rawYaw
    let degPitch := clamp (radians rawPitch) (-Real.pi / 2 + 0.1) (Real.pi / 2 - 0.1)
    { s1 with
      rawYaw := rawYaw, rawPitch := rawPitch, degYaw := degYaw, degPitch := degPitch,
      cameraPosition :=
        ⟨s.target.x + s.radius * Real.cos degPitch * Real.sin degYaw,
         s.target.y + s.radius * Real.sin degPitch,
         s.target.z + s.radius * Real.cos degPitch * Real.cos degYaw⟩ }
  else s1

/-! ## Commands -/

/-- The function `initiateCamera` (reset).  The new `cameraDirection` is computed
from the new `cameraPosition` and the previous `cameraDirection`, as in the
source. -/
def initiateCamera (s : State) : State :=
  let cameraPosition : Vec3 := ⟨0, 1, 4⟩
  let target : Vec3 := ⟨-0.375, 0.5, 0.4⟩
  let cameraDirection := Vec3.normalize (Vec3.sub cameraPosition s.cameraDirection)
  let worldUp : Vec3 := ⟨0, 1, 0⟩
  let cameraRight := Vec3.normalize (Vec3.cross worldUp cameraDirection)
  let cameraUp := Vec3.normalize (Vec3.cross cameraDirection cameraRight)
  { s with
    cameraPosition := cameraPosition, target := target, cameraDirection := cameraDirection,
    worldUp := worldUp, cameraRight := cameraRight, cameraUp := cameraUp,
    CameraFront := ⟨0, 0, -1⟩ }

/-- The function `spinCamera`.  `tSin` and `tCos` are the values of the two
`glfwGetTime()` calls, the one under `sin` and the one under `cos`. -/
def spinCamera (s : State) (tSin tCos : ℝ) : State :=
  let cameraPosition : Vec3 :=
    Vec3.add ⟨0, 1, 0⟩ ⟨3.5 * Real.sin tSin, 0, 3.5 * Real.cos tCos⟩
  let target : Vec3 := ⟨-0.375, 0.5, 0.4⟩
  let cameraDirection := Vec3.normalize (Vec3.sub cameraPosition s.cameraDirection)
  let worldUp : Vec3 := ⟨0, 1, 0⟩
  let cameraRight := Vec3.normalize (Vec3.cross worldUp cameraDirection)
  let cameraUp := Vec3.normalize (Vec3.cross cameraDirection cameraRight)
  { s with
    cameraPosition := cameraPosition, target := target, cameraDirection := cameraDirection,
    worldUp := worldUp, cameraRight := cameraRight, cameraUp := cameraUp,
    CameraFront := ⟨0, 0, -1⟩ }

/-- The function `TransformCamera`, run once per frame after the events are
polled; `tSin`, `tCos` are the clock readings `spinCamera` takes if it runs. -/
def TransformCamera (s : State) (tSin tCos : ℝ) : State :=
  let s1 : State :=
    { s with isOrbiting := s.keys GLFW_KEY_LEFT_ALT && s.mouseButtons GLFW_MOUSE_BUTTON_LEFT }
  let s2 := if s1.keys GLFW_KEY_F then initiateCamera s1 else s1
  if s2.keys GLFW_KEY_S then spinCamera s2 tSin tCos else s2

/-! ## Runs of the program -/

/-- What can happen to the globals: the four input events, the per-frame
`TransformCamera`, and the two commands taken on their own (reset and spin).
A frame and a spin carry the two values `glfwGetTime()` returns to
`spinCamera`, the one under `sin` and the one under `cos`; nothing relates
the two. -/
inductive Event where
  | key (key action : Int)
  | mouseButton (button action : Int)
  | cursor (xpos ypos : ℝ)
  | scroll (xoffset yoffset : ℝ)
  | frame (tSin tCos : ℝ)
  | reset
  | spin (tSin tCos : ℝ)

/-- One event applied to the globals. -/
def step (s : State) : Event → State
  | .key k a => key_callback s k a
  | .mouseButton b a => mouse_button_callback s b a
  | .cursor x y => cursor_position_callback s x y
  | .scroll x y => scroll_callback s x y
  | .frame tSin tCos => TransformCamera s tSin tCos
  | .reset => initiateCamera s
  | .spin tSin tCos => spinCamera s tSin tCos

/-- A sequence of events applied in order. -/
def run (s : State) (es : List Event) : State := es.foldl step s

/-- The states the program can be in: the startup state and every state an
event leads to from one of them. -/
inductive Reachable : State → Prop where
  | start : Reachable init
  | next (s : State) (e : Event) : Reachable s → Reachable (step s e)

/-- A sequence of cursor moves, each delivered to `cursor_position_callback`. -/
def cursorMoves (s : State) (ms : List (ℝ × ℝ)) : State :=
  ms.foldl (fun u m => cursor_position_callback u m.1 m.2) s

/-- Orbiting from the start: the startup state after left alt and the left button went down and one
frame ran: orbiting is active. -/
def orbitingStart : State :=
  run init [Event.key GLFW_KEY_LEFT_ALT GLFW_PRESS,
            Event.mouseButton GLFW_MOUSE_BUTTON_LEFT GLFW_PRESS,
            Event.frame 0 0]

/-- The state `orbitingStart` after a first cursor move at `(320, 240)`. -/
def orbitingMoved : State := cursor_position_callback orbitingStart 320 240

/-- Left alt and the left mouse button are both held, as `keys` and
`mouseButtons` record it. -/
def bothHeld (s : State) : Bool :=
  s.keys GLFW_KEY_LEFT_ALT && s.mouseButtons GLFW_MOUSE_BUTTON_LEFT

/-- The events that run `TransformCamera`. -/
def Event.isFrame : Event → Bool
  | .frame _ _ => true
  | _ => false

/-- A spin with clock readings `tSin`, `tCos` is degenerate in state `s` when it
puts the camera exactly above or below the tip of the current
`cameraDirection`: the vector `cameraPosition - cameraDirection` that
`spinCamera` normalises is then vertical (or zero). -/
def spinDegenerate (s : State) (tSin tCos : ℝ) : Prop :=
  3.5 * Real.sin tSin = s.cameraDirection.x ∧ 3.5 * Real.cos tCos = s.cameraDirection.z

/-- An event is regular in state `s` when the spin it runs, if it runs one, is
not degenerate in the state the spin starts from (for a frame: after the reset
that the F key may have run first). -/
def Event.regular (s : State) : Event → Prop
  | .spin tSin tCos => ¬ spinDegenerate s tSin tCos
  | .frame tSin tCos =>
    s.keys GLFW_KEY_S = true →
      ¬ spinDegenerate (if s.keys GLFW_KEY_F then initiateCamera s else s) tSin tCos
  | _ => True

/-- The states reached from startup through regular events only. -/
inductive RegularReachable : State → Prop where
  | start : RegularReachable init
  | next (s : State) (e : Event) :
      RegularReachable s → Event.regular s e → RegularReachable (step s e)

/-- The reading under `sin` of the degenerate spin from startup. -/
def degenerateSin : ℝ := Real.arcsin (startDirection.x / 3.5)

/-- The reading under `cos` of the degenerate spin from startup. -/
def degenerateCos : ℝ := Real.arccos (startDirection.z / 3.5)

/-- Both inputs went down and the cursor moved once, all before any frame ran:
what one `glfwPollEvents` call can deliver. -/
def heldBeforeFrame : State :=
  run init [Event.key GLFW_KEY_LEFT_ALT GLFW_PRESS,
            Event.mouseButton GLFW_MOUSE_BUTTON_LEFT GLFW_PRESS,
            Event.cursor 320 240]

/-! ## Model matrices (`glm::mat4` and `glm/gtc/matrix_transform`)

A `glm::mat4` is stored by columns, `m[c][r]`; here `m r c` is the entry of
row `r` and column `c`, so the GLM column `m[c]` is `fun r => m r c`. -/

/-- A `glm::mat4` with exact real entries, indexed row first. -/
abbrev Mat4 := Matrix (Fin 4) (Fin 4) ℝ

/-- The function `glm::translate`: columns 0 to 2 are kept and
`Result[3] = m[0] * v[0] + m[1] * v[1] + m[2] * v[2] + m[3]`. -/
def translate (m : Mat4) (v : Vec3) : Mat4 :=
  Matrix.of fun r c =>
    (![m r 0, m r 1, m r 2, m r 0 * v.x + m r 1 * v.y + m r 2 * v.z + m r 3] : Fin 4 → ℝ) c

/-- The function `glm::rotate` (angle in radians): the rotation about the
normalised axis is built entry by entry and the first three columns of `m` are
combined with it; `Result[3] = m[3]`. -/
def rotate (m : Mat4) (angle : ℝ) (v : Vec3) : Mat4 :=
  let c := Real.cos angle
  let s := Real.sin angle
  let axis := Vec3.normalize v
  let temp : Vec3 := ⟨(1 - c) * axis.x, (1 - c) * axis.y, (1 - c) * axis.z⟩
  let r00 := c + temp.x * axis.x
  let r01 := temp.x * axis.y + s * axis.z
  let r02 := temp.x * axis.z - s * axis.y
  let r10 := temp.y * axis.x - s * axis.z
  let r11 := c + temp.y * axis.y
  let r12 := temp.y * axis.z + s * axis.x
  let r20 := temp.z * axis.x + s * axis.y
  let r21 := temp.z * axis.y - s * axis.x
  let r22 := c + temp.z * axis.z
  Matrix.of fun r col =>
    (![m r 0 * r00 + m r 1 * r01 + m r 2 * r02,
       m r 0 * r10 + m r 1 * r11 + m r 2 * r12,
       m r 0 * r20 + m r 1 * r21 + m r 2 * r22,
       m r 3] : Fin 4 → ℝ) col

/-- The function `glm::scale`: `Result[k] = m[k] * v[k]` for `k < 3`,
`Result[3] = m[3]`. -/
def scale (m : Mat4) (v : Vec3) : Mat4 :=
  Matrix.of fun r c => (![m r 0 * v.x, m r 1 * v.y, m r 2 * v.z, m r 3] : Fin 4 → ℝ) c

/-- The program constant `PI = 3.14159`. -/
def PI : ℝ := 3.14159

/-- The program constant `toRadians = PI / 180.0f`. -/
def toRadians : ℝ := PI / 180.0

/-- Table `planePositions`: chair leg, back right. -/
def planePositions : Fin 4 → Vec3 :=
  ![⟨0.125, 0.60, 0.125⟩, ⟨0.25, 0.60, 0.0⟩, ⟨0.125, 0.60, -0.125⟩, ⟨0.0, 0.60, 0.0⟩]

/-- Table `planePositions2`: chair leg, back left. -/
def planePositions2 : Fin 4 → Vec3 :=
  ![⟨-0.875, 0.60, 0.125⟩, ⟨-0.75, 0.60, 0.0⟩, ⟨-0.875, 0.60, -0.125⟩, ⟨-1.0, 0.60, 0.0⟩]

/-- Table `planePositions3`: chair leg, front left. -/
def planePositions3 : Fin 4 → Vec3 :=
  ![⟨-0.875, 0.0, 0.925⟩, ⟨-0.75, 0.0, 0.8⟩, ⟨-0.875, 0.0, 0.675⟩, ⟨-1.0, 0.0, 0.8⟩]

/-- Table `planePositions4`: chair leg, front right. -/
def planePositions4 : Fin 4 → Vec3 :=
  ![⟨0.125, 0.0, 0.925⟩, ⟨0.25, 0.0, 0.8⟩, ⟨0.125, 0.0, 0.675⟩, ⟨0.0, 0.0, 0.8⟩]

/-- Table `planePositions5`: chair seat (front, right, back, left, top, bottom). -/
def planePositions5 : Fin 6 → Vec3 :=
  ![⟨-0.375, 0.65, 0.93⟩, ⟨0.25, 0.65, 0.40⟩, ⟨-0.375, 0.65, -0.125⟩, ⟨-1.0, 0.65, 0.40⟩,
    ⟨-0.375, 0.76, 0.40⟩, ⟨-0.375, 0.54, 0.40⟩]

/-- Table `planePositions6`: chair back (front, back, top). -/
def planePositions6 : Fin 3 → Vec3 :=
  ![⟨-0.375, 1.51, 0.125⟩, ⟨-0.375, 1.51, -0.125⟩, ⟨-0.375, 1.975, 0.0⟩]

/-- Table `planeRotations` (degrees). -/
def planeRotations : Fin 4 → ℝ := ![0.0, 90.0, 180.0, -90.0]

/-- Table `planeRotations2` (degrees). -/
def planeRotations2 : Fin 3 → ℝ := ![0.0, 180.0, -90.0]

/-- Table `planeRotations3` (degrees). -/
def planeRotations3 : Fin 6 → ℝ := ![0.0, 90.0, 180.0, -90.0, -90.0, 90.0]

/-- The body shared by the four leg loops of the frame loop: a fresh
`glm::mat4 modelMatrix` (the identity), then `translate`, `rotate` about
`(0, 1, 0)` and `scale`. -/
def legModel (position : Vec3) (rotation : ℝ) (scaling : Vec3) : Mat4 :=
  let modelMatrix : Mat4 := 1
  let modelMatrix := translate modelMatrix position
  let modelMatrix := rotate modelMatrix (rotation * toRadians) ⟨0, 1, 0⟩
  scale modelMatrix scaling

/-- Model matrix `i` of the loop "back right leg". -/
def backRightLegModel (i : Fin 4) : Mat4 :=
  legModel (planePositions i) (planeRotations i) ⟨0.50, 5.5, 0.50⟩

/-- Model matrix `i` of the loop "back left leg". -/
def backLeftLegModel (i : Fin 4) : Mat4 :=
  legModel (planePositions2 i) (planeRotations i) ⟨0.50, 5.5, 0.50⟩

/-- Model matrix `i` of the loop "front left leg". -/
def frontLeftLegModel (i : Fin 4) : Mat4 :=
  legModel (planePositions3 i) (planeRotations i) ⟨0.50, 3.0, 0.50⟩

/-- Model matrix `i` of the fourth leg loop (table `planePositions4`). -/
def frontRightLegModel (i : Fin 4) : Mat4 :=
  legModel (planePositions4 i) (planeRotations i) ⟨0.50, 3.0, 0.50⟩

/-- Model matrix `i` of the loop "chair seat": after the scale, entries
`i >= 4` are rotated about `(1, 0, 0)` by the same table angle. -/
def seatModel (i : Fin 6) : Mat4 :=
  let modelMatrix : Mat4 := 1
  let modelMatrix := translate modelMatrix (planePositions5 i)
  let modelMatrix := rotate modelMatrix (planeRotations3 i * toRadians) ⟨0, 1, 0⟩
  let modelMatrix := scale modelMatrix ⟨2.1, 0.45, 2.50⟩
  if 4 ≤ i.val then rotate modelMatrix (planeRotations3 i * toRadians) ⟨1, 0, 0⟩
  else modelMatrix

/-- Model matrix `i` of the loop "chair back": after the scale, entries
`i >= 2` are rotated about `(1, 0, 0)` and scaled a second time. -/
def chairBackModel (i : Fin 3) : Mat4 :=
  let modelMatrix : Mat4 := 1
  let modelMatrix := translate modelMatrix (planePositions6 i)
  let modelMatrix := rotate modelMatrix (planeRotations2 i * toRadians) ⟨0, 1, 0⟩
  let modelMatrix := scale modelMatrix ⟨2.5, 1.85, 1.0⟩
  if 2 ≤ i.val then
    let modelMatrix := rotate modelMatrix (planeRotations2 i * toRadians) ⟨1, 0, 0⟩
    scale modelMatrix ⟨0.20, 2.5, 1.0⟩
  else modelMatrix

/-! ### The matrices the specification names -/

/-- The translation matrix `Translate(p)`. -/
def translationMatrix (p : Vec3) : Mat4 :=
  !![1, 0, 0, p.x; 0, 1, 0, p.y; 0, 0, 1, p.z; 0, 0, 0, 1]

/-- The rotation matrix `RotateY(a)` about the vertical axis. -/
def rotationY (a : ℝ) : Mat4 :=
  !![Real.cos a, 0, Real.sin a, 0; 0, 1, 0, 0; -Real.sin a, 0, Real.cos a, 0; 0, 0, 0, 1]

/-- The rotation matrix `RotateX(a)` about the horizontal axis. -/
def rotationX (a : ℝ) : Mat4 :=
  !![1, 0, 0, 0; 0, Real.cos a, -Real.sin a, 0; 0, Real.sin a, Real.cos a, 0; 0, 0, 0, 1]

/-- The non-uniform scale matrix `Scale(v)`. -/
def scaleMatrix (v : Vec3) : Mat4 :=
  !![v.x, 0, 0, 0; 0, v.y, 0, 0; 0, 0, v.z, 0; 0, 0, 0, 1]

/-- The model matrix as the specification words it, in the order translate,
rotate(Y), rotate(X) when the entry has a secondary angle, scale. -/
def specModel (position : Vec3) (yaw : ℝ) (secondaryAngle : Option ℝ) (scaling : Vec3) : Mat4 :=
  match secondaryAngle with
  | some a => translationMatrix position * rotationY yaw * rotationX a * scaleMatrix scaling
  | none => translationMatrix position * rotationY yaw * scaleMatrix scaling

/-- The translation component of a model matrix: rows 0 to 2 of its fourth
column. -/
def translationPart (m : Mat4) : Vec3 := ⟨m 0 3, m 1 3, m 2 3⟩

/-! ## Field of view -/

/-- Whatever `fov` was, `scroll_callback` leaves it inside `[1, 55]`. -/
theorem scroll_callback_fov_mem (s : State) (x d : ℝ) :
    1 ≤ (scroll_callback s x d).fov ∧ (scroll_callback s x d).fov ≤ 55 := by
  simp only [scroll_callback]
  split_ifs <;> constructor <;> norm_num at * <;> linarith

/-- With `fov` inside `[1, 55]` the callback is the clamped subtraction. -/
theorem scroll_callback_fov_of_mem (s : State) (x d : ℝ) (h1 : 1 ≤ s.fov) (h2 : s.fov ≤ 55) :
    (scroll_callback s x d).fov = clamp (s.fov - 0.01 * d) 1.0 55.0 := by
  have hg : (1.0 : ℝ) ≤ s.fov ∧ s.fov ≤ 55.0 := by constructor <;> norm_num <;> assumption
  simp only [scroll_callback, if_pos hg, clamp, mul_comm d]
  rcases lt_or_le (s.fov - 0.01 * d) 1.0 with h | h
  · rw [if_pos h, max_eq_right h.le, if_neg (by norm_num), min_eq_left (by norm_num)]
  · rw [if_neg (not_lt.mpr h), max_eq_left h]
    rcases le_or_lt (s.fov - 0.01 * d) 55.0 with h3 | h3
    · rw [if_neg (not_lt.mpr h3), min_eq_left h3]
    · rw [if_pos h3, min_eq_right h3.le]

/-- The field `fov` is written by `scroll_callback` only. -/
theorem step_fov (s : State) (e : Event) :
    (step s e).fov = s.fov ∨ ∃ x d, (step s e).fov = (scroll_callback s x d).fov := by
  cases e with
  | key k a => exact Or.inl rfl
  | mouseButton b a => exact Or.inl rfl
  | cursor x y =>
    left
    simp only [step, cursor_position_callback]
    split_ifs <;> rfl
  | scroll x y => exact Or.inr ⟨x, y, rfl⟩
  | frame t1 t2 =>
    left
    simp only [step, TransformCamera]
    split_ifs <;> rfl
  | reset => exact Or.inl rfl
  | spin t1 t2 => exact Or.inl rfl

/-- In every reachable state `fov` lies in `[1, 55]`. -/
theorem reachable_fov_mem {s : State} (h : Reachable s) : 1 ≤ s.fov ∧ s.fov ≤ 55 := by
  induction h with
  | start => constructor <;> norm_num [init]
  | next s e _ ih =>
    rcases step_fov s e with h | ⟨x, d, h⟩
    · rw [h]; exact ih
    · rw [h]; exact scroll_callback_fov_mem s x d

/-- C1: for every scroll delta `d` and every reachable state, `scroll_callback`
leaves `fov = clamp (fov_before - 0.01 * d, 1.0, 55.0)`; from `fov = 45` a
scroll of 10 gives 44.9, a scroll of 10000 gives 1.0, and any number of further
scrolls of 10000 leaves it at 1.0. -/
theorem scroll_callback_fov_clamp (s : State) (x d : ℝ) (h : Reachable s) :
    (scroll_callback s x d).fov = clamp (s.fov - 0.01 * d) 1.0 55.0 ∧
    (∀ s0 : State, s0.fov = 45 →
      (scroll_callback s0 x 10).fov = 44.9 ∧
      (scroll_callback s0 x 10000).fov = 1.0 ∧
      ∀ n : ℕ, ((fun u => scroll_callback u x 10000)^[n + 1] s0).fov = 1.0) := by
  refine ⟨scroll_callback_fov_of_mem s x d (reachable_fov_mem h).1 (reachable_fov_mem h).2, ?_⟩
  intro s0 h0
  have hone : ∀ u : State, u.fov = 1.0 → (scroll_callback u x 10000).fov = 1.0 := by
    intro u hu
    rw [scroll_callback_fov_of_mem u x 10000 (by rw [hu]; norm_num) (by rw [hu]; norm_num), hu]
    norm_num [clamp]
  have hbig : (scroll_callback s0 x 10000).fov = 1.0 := by
    rw [scroll_callback_fov_of_mem s0 x 10000 (by rw [h0]; norm_num) (by rw [h0]; norm_num), h0]
    norm_num [clamp]
  refine ⟨?_, hbig, ?_⟩
  · rw [scroll_callback_fov_of_mem s0 x 10 (by rw [h0]; norm_num) (by rw [h0]; norm_num), h0]
    norm_num [clamp]
  · intro n
    induction n with
    | zero => simpa using hbig
    | succ n ih =>
      rw [Function.iterate_succ_apply']
      exact hone _ ih

/-- C1 at the startup state with a scroll of 10. -/
theorem scroll_callback_fov_clamp_witness :
    Reachable init ∧
    ((scroll_callback init 0 10).fov = clamp (init.fov - 0.01 * 10) 1.0 55.0 ∧
    (∀ s0 : State, s0.fov = 45 →
      (scroll_callback s0 0 10).fov = 44.9 ∧
      (scroll_callback s0 0 10000).fov = 1.0 ∧
      ∀ n : ℕ, ((fun u => scroll_callback u 0 10000)^[n + 1] s0).fov = 1.0)) :=
  ⟨Reachable.start, scroll_callback_fov_clamp init 0 10 Reachable.start⟩

/-! ## Orbiting -/

/-- The state `orbitingStart` is reachable. -/
theorem reachable_orbitingStart : Reachable orbitingStart := by
  simp only [orbitingStart, run, List.foldl]
  exact Reachable.next _ _ (Reachable.next _ _ (Reachable.next _ _ Reachable.start))

/-- In `orbitingStart` orbiting is active. -/
theorem orbitingStart_isOrbiting : orbitingStart.isOrbiting = true := by
  simp [orbitingStart, run, step, TransformCamera, key_callback, mouse_button_callback, init,
    GLFW_KEY_LEFT_ALT, GLFW_PRESS, GLFW_MOUSE_BUTTON_LEFT, GLFW_KEY_F, GLFW_KEY_S]

/-- The callback with orbiting active, all fields at once. -/
theorem cursor_position_callback_of_orbiting (s : State) (x y : ℝ) (h : s.isOrbiting = true) :
    cursor_position_callback s x y =
      { s with
        firstMouseMove := false
        xChange := x - (if s.firstMouseMove then x else s.lastX)
        yChange := (if s.firstMouseMove then y else s.lastY) - y
        lastX := x
        lastY := y
        rawYaw := s.rawYaw + (x - (if s.firstMouseMove then x else s.lastX))
        rawPitch := s.rawPitch + ((if s.firstMouseMove then y else s.lastY) - y)
        degYaw := radians (s.rawYaw + (x - (if s.firstMouseMove then x else s.lastX)))
        degPitch := clamp (radians (s.rawPitch + ((if s.firstMouseMove then y else s.lastY) - y)))
          (-Real.pi / 2 + 0.1) (Real.pi / 2 - 0.1)
        cameraPosition :=
          ⟨s.target.x + s.radius *
              Real.cos (clamp (radians (s.rawPitch + ((if s.firstMouseMove then y else s.lastY) - y)))
                (-Real.pi / 2 + 0.1) (Real.pi / 2 - 0.1)) *
              Real.sin (radians (s.rawYaw + (x - (if s.firstMouseMove then x else s.lastX)))),
           s.target.y + s.radius *
              Real.sin (clamp (radians (s.rawPitch + ((if s.firstMouseMove then y else s.lastY) - y)))
                (-Real.pi / 2 + 0.1) (Real.pi / 2 - 0.1)),
           s.target.z + s.radius *
              Real.cos (clamp (radians (s.rawPitch + ((if s.firstMouseMove then y else s.lastY) - y)))
                (-Real.pi / 2 + 0.1) (Real.pi / 2 - 0.1)) *
              Real.cos (radians (s.rawYaw + (x - (if s.firstMouseMove then x else s.lastX))))⟩ } := by
  simp only [cursor_position_callback, h, if_true]

/-- C2: a cursor move at `(x, y)` that is not the first one and arrives while
orbiting adds `x - lastX` to `rawYaw` and `lastY - y` to `rawPitch`, stores
`(x, y)` in `lastX, lastY`, and puts the camera at
`target + radius * (cos p * sin w, sin p, cos p * cos w)` with `w` the yaw in
radians and `p` the clamped pitch in radians; from `(320, 240)` to `(420, 240)`
the deltas are 100 and 0, so `rawYaw` grows by 100 and `rawPitch` is unchanged. -/
theorem cursor_position_callback_orbit (s : State) (x y : ℝ)
    (hfirst : s.firstMouseMove = false) (horbit : s.isOrbiting = true) :
    (cursor_position_callback s x y).rawYaw = s.rawYaw + (x - s.lastX) ∧
    (cursor_position_callback s x y).rawPitch = s.rawPitch + (s.lastY - y) ∧
    (cursor_position_callback s x y).lastX = x ∧
    (cursor_position_callback s x y).lastY = y ∧
    (cursor_position_callback s x y).target = s.target ∧
    (cursor_position_callback s x y).radius = s.radius ∧
    (cursor_position_callback s x y).cameraPosition =
      Vec3.add s.target (Vec3.smul s.radius
        ⟨Real.cos (clamp (radians (s.rawPitch + (s.lastY - y))) (-Real.pi / 2 + 0.1)
            (Real.pi / 2 - 0.1)) * Real.sin (radians (s.rawYaw + (x - s.lastX))),
         Real.sin (clamp (radians (s.rawPitch + (s.lastY - y))) (-Real.pi / 2 + 0.1)
            (Real.pi / 2 - 0.1)),
         Real.cos (clamp (radians (s.rawPitch + (s.lastY - y))) (-Real.pi / 2 + 0.1)
            (Real.pi / 2 - 0.1)) * Real.cos (radians (s.rawYaw + (x - s.lastX)))⟩) ∧
    (s.lastX = 320 → s.lastY = 240 → x = 420 → y = 240 →
      (cursor_position_callback s x y).xChange = 100 ∧
      (cursor_position_callback s x y).yChange = 0 ∧
      (cursor_position_callback s x y).rawYaw = s.rawYaw + 100 ∧
      (cursor_position_callback s x y).rawPitch = s.rawPitch) := by
  rw [cursor_position_callback_of_orbiting s x y horbit]
  simp only [hfirst, Bool.false_eq_true, if_false, true_and]
  constructor
  · simp only [Vec3.add, Vec3.smul, mul_assoc]
  · intro hx hy hx2 hy2
    subst hx2 hy2
    rw [hx, hy]
    norm_num

/-- A cursor move does not change `isOrbiting`. -/
theorem cursor_position_callback_isOrbiting (s : State) (x y : ℝ) :
    (cursor_position_callback s x y).isOrbiting = s.isOrbiting := by
  simp only [cursor_position_callback]
  split_ifs <;> rfl

/-- After a cursor move `firstMouseMove` is false. -/
theorem cursor_position_callback_firstMouseMove (s : State) (x y : ℝ) :
    (cursor_position_callback s x y).firstMouseMove = false := by
  simp only [cursor_position_callback]
  split_ifs <;> rfl

/-- In `orbitingMoved` orbiting is active. -/
theorem orbitingMoved_isOrbiting : orbitingMoved.isOrbiting = true := by
  rw [orbitingMoved, cursor_position_callback_isOrbiting, orbitingStart_isOrbiting]

/-- C2 at `orbitingMoved` with the move to `(420, 240)`. -/
theorem cursor_position_callback_orbit_witness :
    orbitingMoved.firstMouseMove = false ∧ orbitingMoved.isOrbiting = true ∧
    (cursor_position_callback orbitingMoved 420 240).rawYaw =
      orbitingMoved.rawYaw + (420 - orbitingMoved.lastX) ∧
    (cursor_position_callback orbitingMoved 420 240).lastX = 420 :=
  ⟨cursor_position_callback_firstMouseMove _ _ _, orbitingMoved_isOrbiting,
   (cursor_position_callback_orbit orbitingMoved 420 240
      (cursor_position_callback_firstMouseMove _ _ _) orbitingMoved_isOrbiting).1,
   (cursor_position_callback_orbit orbitingMoved 420 240
      (cursor_position_callback_firstMouseMove _ _ _) orbitingMoved_isOrbiting).2.2.1⟩

/-- The point `target + r * (cos p * sin w, sin p, cos p * cos w)` is at
distance `r` from `target`. -/
theorem distance_orbit_point (t : Vec3) (r p w : ℝ) (hr : 0 ≤ r) :
    Vec3.distance ⟨t.x + r * Real.cos p * Real.sin w, t.y + r * Real.sin p,
      t.z + r * Real.cos p * Real.cos w⟩ t = r := by
  have h1 := Real.sin_sq_add_cos_sq p
  have h2 := Real.sin_sq_add_cos_sq w
  have key : (t.x + r * Real.cos p * Real.sin w - t.x) * (t.x + r * Real.cos p * Real.sin w - t.x)
      + (t.y + r * Real.sin p - t.y) * (t.y + r * Real.sin p - t.y)
      + (t.z + r * Real.cos p * Real.cos w - t.z) * (t.z + r * Real.cos p * Real.cos w - t.z)
      = r ^ 2 := by
    linear_combination (r ^ 2 * Real.cos p ^ 2) * h2 + r ^ 2 * h1
  simp only [Vec3.distance, Vec3.length, Vec3.dot, Vec3.sub]
  rw [key, Real.sqrt_sq hr]

/-- No event writes `radius`. -/
theorem step_radius (s : State) (e : Event) : (step s e).radius = s.radius := by
  cases e with
  | key k a => rfl
  | mouseButton b a => rfl
  | cursor x y =>
    simp only [step, cursor_position_callback]
    split_ifs <;> rfl
  | scroll x y => rfl
  | frame t1 t2 =>
    simp only [step, TransformCamera]
    split_ifs <;> rfl
  | reset => rfl
  | spin t1 t2 => rfl

/-- In every reachable state `radius` is 3. -/
theorem reachable_radius {s : State} (h : Reachable s) : s.radius = 3.0 := by
  induction h with
  | start => rfl
  | next s e _ ih => rw [step_radius, ih]

/-- C3: after a cursor move processed while orbiting, whatever `rawYaw` and
`rawPitch` have accumulated, the Euclidean distance between `cameraPosition` and
`target` is `radius`, which is 3.0 (it is 3.0 in every reachable state,
`reachable_radius`). -/
theorem cursor_position_callback_on_sphere (s : State) (x y : ℝ)
    (horbit : s.isOrbiting = true) (hradius : s.radius = 3.0) :
    Vec3.distance (cursor_position_callback s x y).cameraPosition
        (cursor_position_callback s x y).target = 3.0 ∧
    (cursor_position_callback s x y).radius = 3.0 := by
  rw [cursor_position_callback_of_orbiting s x y horbit]
  refine ⟨?_, hradius⟩
  have h := distance_orbit_point s.target s.radius
    (clamp (radians (s.rawPitch + ((if s.firstMouseMove then y else s.lastY) - y)))
      (-Real.pi / 2 + 0.1) (Real.pi / 2 - 0.1))
    (radians (s.rawYaw + (x - (if s.firstMouseMove then x else s.lastX))))
    (by rw [hradius]; norm_num)
  rw [hradius] at h ⊢
  exact h

/-- C3 at `orbitingMoved` with the move to `(420, 240)`. -/
theorem cursor_position_callback_on_sphere_witness :
    orbitingMoved.isOrbiting = true ∧ orbitingMoved.radius = 3.0 ∧
    Vec3.distance (cursor_position_callback orbitingMoved 420 240).cameraPosition
        (cursor_position_callback orbitingMoved 420 240).target = 3.0 :=
  ⟨orbitingMoved_isOrbiting,
   reachable_radius (Reachable.next _ (Event.cursor 320 240) reachable_orbitingStart),
   (cursor_position_callback_on_sphere orbitingMoved 420 240 orbitingMoved_isOrbiting
      (reachable_radius (Reachable.next _ (Event.cursor 320 240) reachable_orbitingStart))).1⟩

/-! ## Pitch clamp -/

/-- The function `clamp` lands in `[lo, hi]` when `lo ≤ hi`. -/
theorem clamp_mem (x lo hi : ℝ) (h : lo ≤ hi) : lo ≤ clamp x lo hi ∧ clamp x lo hi ≤ hi :=
  ⟨le_min (le_max_right x lo) h, min_le_right _ _⟩

/-- After a cursor move while orbiting, `degPitch` lies in
`[-π/2 + 0.1, π/2 - 0.1]`. -/
theorem cursor_position_callback_degPitch_mem (s : State) (x y : ℝ)
    (horbit : s.isOrbiting = true) :
    -Real.pi / 2 + 0.1 ≤ (cursor_position_callback s x y).degPitch ∧
    (cursor_position_callback s x y).degPitch ≤ Real.pi / 2 - 0.1 := by
  rw [cursor_position_callback_of_orbiting s x y horbit]
  have hpi := Real.pi_gt_three
  exact clamp_mem _ _ _ (by norm_num; linarith)

/-- A sequence of cursor moves does not change `isOrbiting`. -/
theorem cursorMoves_isOrbiting (ms : List (ℝ × ℝ)) (s : State) :
    (cursorMoves s ms).isOrbiting = s.isOrbiting := by
  induction ms generalizing s with
  | nil => rfl
  | cons m ms ih =>
    show (cursorMoves (cursor_position_callback s m.1 m.2) ms).isOrbiting = s.isOrbiting
    rw [ih, cursor_position_callback_isOrbiting]

/-- The last move of a sequence is applied to the state the earlier ones left. -/
theorem cursorMoves_concat (s : State) (ms : List (ℝ × ℝ)) (m : ℝ × ℝ) :
    cursorMoves s (ms ++ [m]) = cursor_position_callback (cursorMoves s ms) m.1 m.2 := by
  simp [cursorMoves, List.foldl_append]

/-- C4: while orbiting, after each cursor move, and after every non-empty
sequence of cursor moves of any size and direction (purely vertical ones
included), the pitch angle `degPitch` that places the camera is strictly
between `-π/2` and `π/2`. -/
theorem degPitch_strictly_inside (s : State) (horbit : s.isOrbiting = true) :
    (∀ x y : ℝ, -(Real.pi / 2) < (cursor_position_callback s x y).degPitch ∧
      (cursor_position_callback s x y).degPitch < Real.pi / 2) ∧
    (∀ ms : List (ℝ × ℝ), ms ≠ [] →
      -(Real.pi / 2) < (cursorMoves s ms).degPitch ∧
      (cursorMoves s ms).degPitch < Real.pi / 2) := by
  have one : ∀ (u : State) (x y : ℝ), u.isOrbiting = true →
      -(Real.pi / 2) < (cursor_position_callback u x y).degPitch ∧
      (cursor_position_callback u x y).degPitch < Real.pi / 2 := by
    intro u x y hu
    have h := cursor_position_callback_degPitch_mem u x y hu
    constructor
    · have : -(Real.pi / 2) < -Real.pi / 2 + 0.1 := by norm_num; linarith
      linarith [h.1]
    · have : Real.pi / 2 - 0.1 < Real.pi / 2 := by norm_num
      linarith [h.2]
  refine ⟨fun x y => one s x y horbit, ?_⟩
  intro ms hne
  rcases List.eq_nil_or_concat ms with h | ⟨ms0, m, h⟩
  · exact absurd h hne
  · rw [h, List.concat_eq_append, cursorMoves_concat]
    exact one _ _ _ (by rw [cursorMoves_isOrbiting, horbit])

/-- C4 at `orbitingStart`: a vertical move of a million pixels after the
seeding move. -/
theorem degPitch_strictly_inside_witness :
    orbitingStart.isOrbiting = true ∧
    -(Real.pi / 2) < (cursorMoves orbitingStart [(320, 240), (320, -1000000)]).degPitch ∧
    (cursorMoves orbitingStart [(320, 240), (320, -1000000)]).degPitch < Real.pi / 2 :=
  ⟨orbitingStart_isOrbiting,
   (degPitch_strictly_inside orbitingStart orbitingStart_isOrbiting).2 _ (by simp)⟩

/-! ## Camera basis -/

/-- The dot product of a vector with itself is not negative. -/
theorem dot_self_nonneg (v : Vec3) : 0 ≤ Vec3.dot v v := by
  simp only [Vec3.dot]
  nlinarith [mul_self_nonneg v.x, mul_self_nonneg v.y, mul_self_nonneg v.z]

/-- Normalising the left factor divides the dot product by its length. -/
theorem dot_normalize_left (a b : Vec3) :
    Vec3.dot (Vec3.normalize a) b = Vec3.dot a b / Vec3.length a := by
  simp only [Vec3.dot, Vec3.normalize]
  ring

/-- Normalising the right factor divides the dot product by its length. -/
theorem dot_normalize_right (a b : Vec3) :
    Vec3.dot a (Vec3.normalize b) = Vec3.dot a b / Vec3.length b := by
  simp only [Vec3.dot, Vec3.normalize]
  ring

/-- A normalised non-zero vector has dot product 1 with itself. -/
theorem dot_normalize_self (v : Vec3) (h : 0 < Vec3.dot v v) :
    Vec3.dot (Vec3.normalize v) (Vec3.normalize v) = 1 := by
  rw [dot_normalize_left, dot_normalize_right, div_div]
  simp only [Vec3.length]
  rw [Real.mul_self_sqrt h.le]
  exact div_self h.ne'

/-- Length 1 from dot product 1. -/
theorem length_eq_one_of_dot (v : Vec3) (h : Vec3.dot v v = 1) : Vec3.length v = 1 := by
  rw [Vec3.length, h, Real.sqrt_one]

/-- Dot product 1 from length 1. -/
theorem dot_eq_one_of_length (v : Vec3) (h : Vec3.length v = 1) : Vec3.dot v v = 1 := by
  have h0 := dot_self_nonneg v
  have h2 := Real.mul_self_sqrt h0
  simp only [Vec3.length] at h
  rw [h] at h2
  linarith

/-- Lagrange identity for `glm::cross`. -/
theorem dot_cross_self (a b : Vec3) :
    Vec3.dot (Vec3.cross a b) (Vec3.cross a b)
      = Vec3.dot a a * Vec3.dot b b - Vec3.dot a b ^ 2 := by
  simp only [Vec3.dot, Vec3.cross]
  ring

/-- The cross product is orthogonal to its left factor. -/
theorem dot_cross_left (a b : Vec3) : Vec3.dot a (Vec3.cross a b) = 0 := by
  simp only [Vec3.dot, Vec3.cross]
  ring

/-- The cross product is orthogonal to its right factor. -/
theorem dot_cross_right (a b : Vec3) : Vec3.dot b (Vec3.cross a b) = 0 := by
  simp only [Vec3.dot, Vec3.cross]
  ring

/-- The three assignments shared by the initialisers, `initiateCamera` and
`spinCamera`: from a vector `v` that is not vertical, `direction = normalize v`,
`right = normalize (cross (worldUp, direction))` and
`up = normalize (cross (direction, right))` are orthonormal. -/
theorem basis_orthonormal (v : Vec3) (h : 0 < v.x * v.x + v.z * v.z) :
    Vec3.Orthonormal (Vec3.normalize v)
      (Vec3.normalize (Vec3.cross ⟨0, 1, 0⟩ (Vec3.normalize v)))
      (Vec3.normalize (Vec3.cross (Vec3.normalize v)
        (Vec3.normalize (Vec3.cross ⟨0, 1, 0⟩ (Vec3.normalize v))))) := by
  have hv : 0 < Vec3.dot v v := by
    simp only [Vec3.dot]
    nlinarith [mul_self_nonneg v.y]
  have hL : 0 < Vec3.length v := Real.sqrt_pos.mpr hv
  have hd : Vec3.dot (Vec3.normalize v) (Vec3.normalize v) = 1 := dot_normalize_self v hv
  have hc : 0 < Vec3.dot (Vec3.cross ⟨0, 1, 0⟩ (Vec3.normalize v))
      (Vec3.cross ⟨0, 1, 0⟩ (Vec3.normalize v)) := by
    have e : Vec3.dot (Vec3.cross ⟨0, 1, 0⟩ (Vec3.normalize v))
        (Vec3.cross ⟨0, 1, 0⟩ (Vec3.normalize v))
        = (v.x * v.x + v.z * v.z) / (Vec3.length v * Vec3.length v) := by
      simp only [Vec3.dot, Vec3.cross, Vec3.normalize]
      field_simp
      ring
    rw [e]
    exact div_pos h (mul_pos hL hL)
  have hr := dot_normalize_self _ hc
  have hdr : Vec3.dot (Vec3.normalize v)
      (Vec3.normalize (Vec3.cross ⟨0, 1, 0⟩ (Vec3.normalize v))) = 0 := by
    rw [dot_normalize_right, dot_cross_right, zero_div]
  have he : Vec3.dot
      (Vec3.cross (Vec3.normalize v) (Vec3.normalize (Vec3.cross ⟨0, 1, 0⟩ (Vec3.normalize v))))
      (Vec3.cross (Vec3.normalize v) (Vec3.normalize (Vec3.cross ⟨0, 1, 0⟩ (Vec3.normalize v))))
      = 1 := by
    rw [dot_cross_self, hd, hr, hdr]
    norm_num
  have hu := dot_normalize_self _ (by rw [he]; norm_num)
  refine ⟨length_eq_one_of_dot _ hd, length_eq_one_of_dot _ hr, length_eq_one_of_dot _ hu,
    hdr, ?_, ?_⟩
  · rw [dot_normalize_right, dot_cross_left, zero_div]
  · rw [dot_normalize_right, dot_cross_right, zero_div]

/-- The startup basis is orthonormal. -/
theorem init_orthonormal :
    Vec3.Orthonormal init.cameraDirection init.cameraRight init.cameraUp := by
  have h := basis_orthonormal (Vec3.sub defaultPosition defaultTarget)
    (by norm_num [Vec3.sub, defaultPosition, defaultTarget])
  exact h

/-- The function `initiateCamera` leaves an orthonormal basis when the previous
`cameraDirection` has length 1. -/
theorem initiateCamera_orthonormal (s : State)
    (h : Vec3.length s.cameraDirection = 1) :
    Vec3.Orthonormal (initiateCamera s).cameraDirection (initiateCamera s).cameraRight
      (initiateCamera s).cameraUp := by
  have hd := dot_eq_one_of_length _ h
  simp only [Vec3.dot] at hd
  have key := basis_orthonormal (Vec3.sub ⟨0, 1, 4⟩ s.cameraDirection) (by
    simp only [Vec3.sub]
    nlinarith [mul_self_nonneg s.cameraDirection.x, mul_self_nonneg s.cameraDirection.y,
      mul_self_nonneg (s.cameraDirection.z - 1)])
  exact key

/-- The function `spinCamera` leaves an orthonormal basis when the spin is not
degenerate. -/
theorem spinCamera_orthonormal (s : State) (t1 t2 : ℝ)
    (hreg : ¬ spinDegenerate s t1 t2) :
    Vec3.Orthonormal (spinCamera s t1 t2).cameraDirection (spinCamera s t1 t2).cameraRight
      (spinCamera s t1 t2).cameraUp := by
  have key := basis_orthonormal
    (Vec3.sub (Vec3.add ⟨0, 1, 0⟩ ⟨3.5 * Real.sin t1, 0, 3.5 * Real.cos t2⟩) s.cameraDirection) (by
    simp only [Vec3.sub, Vec3.add]
    by_contra hcon
    have h0 : (0 + 3.5 * Real.sin t1 - s.cameraDirection.x) *
        (0 + 3.5 * Real.sin t1 - s.cameraDirection.x) +
        (0 + 3.5 * Real.cos t2 - s.cameraDirection.z) *
        (0 + 3.5 * Real.cos t2 - s.cameraDirection.z) = 0 :=
      le_antisymm (not_lt.mp hcon) (add_nonneg (mul_self_nonneg _) (mul_self_nonneg _))
    obtain ⟨hx, hz⟩ := mul_self_add_mul_self_eq_zero.mp h0
    exact hreg ⟨by linarith, by linarith⟩)
  exact key

/-- A unit `cameraDirection` has horizontal part of length at most 1, so
readings with `sin² tSin + cos² tCos > 4/49` (the camera more than 1 away from
the vertical axis through the center) never make a spin degenerate. -/
theorem not_spinDegenerate_of_readings (s : State) (t1 t2 : ℝ)
    (h : Vec3.length s.cameraDirection = 1)
    (ht : 4 / 49 < Real.sin t1 ^ 2 + Real.cos t2 ^ 2) : ¬ spinDegenerate s t1 t2 := by
  have hd := dot_eq_one_of_length _ h
  simp only [Vec3.dot] at hd
  rintro ⟨hx, hz⟩
  rw [← hx, ← hz] at hd
  nlinarith [mul_self_nonneg s.cameraDirection.y]

/-- Every regular event keeps the basis orthonormal. -/
theorem step_orthonormal (s : State) (e : Event)
    (h : Vec3.Orthonormal s.cameraDirection s.cameraRight s.cameraUp)
    (hreg : Event.regular s e) :
    Vec3.Orthonormal (step s e).cameraDirection (step s e).cameraRight (step s e).cameraUp := by
  cases e with
  | key k a => exact h
  | mouseButton b a => exact h
  | cursor x y =>
    simp only [step, cursor_position_callback]
    split_ifs <;> exact h
  | scroll x y => exact h
  | frame t1 t2 =>
    simp only [Event.regular] at hreg
    simp only [step, TransformCamera]
    split_ifs with hF hS hS
    · have hS2 : s.keys GLFW_KEY_S = true := hS
      have hF2 : s.keys GLFW_KEY_F = true := hF
      have hr := hreg hS2
      rw [if_pos hF2] at hr
      exact spinCamera_orthonormal _ t1 t2 hr
    · exact initiateCamera_orthonormal _ h.1
    · have hS2 : s.keys GLFW_KEY_S = true := hS
      have hF2 : ¬ s.keys GLFW_KEY_F = true := hF
      have hr := hreg hS2
      rw [if_neg hF2] at hr
      exact spinCamera_orthonormal _ t1 t2 hr
    · exact h
  | reset => exact initiateCamera_orthonormal s h.1
  | spin t1 t2 => exact spinCamera_orthonormal s t1 t2 hreg

/-- The basis is orthonormal in every state reached through regular events. -/
theorem regularReachable_basis {s : State} (h : RegularReachable s) :
    Vec3.Orthonormal s.cameraDirection s.cameraRight s.cameraUp := by
  induction h with
  | start => exact init_orthonormal
  | next s e _ hreg ih => exact step_orthonormal s e ih hreg

/-- Running events from a reachable state gives a reachable state. -/
theorem reachable_run (es : List Event) (s : State) (h : Reachable s) :
    Reachable (run s es) := by
  induction es generalizing s with
  | nil => exact h
  | cons e es ih => exact ih (step s e) (Reachable.next s e h)

/-- The startup direction has a horizontal part of size at most 1. -/
theorem startDirection_components :
    -1 ≤ startDirection.x / 3.5 ∧ startDirection.x / 3.5 ≤ 1 ∧
    -1 ≤ startDirection.z / 3.5 ∧ startDirection.z / 3.5 ≤ 1 := by
  have hd := dot_eq_one_of_length _ init_orthonormal.1
  have hd2 : startDirection.x * startDirection.x + startDirection.y * startDirection.y
      + startDirection.z * startDirection.z = 1 := hd
  have hx : startDirection.x * startDirection.x ≤ 1 := by
    nlinarith [mul_self_nonneg startDirection.y, mul_self_nonneg startDirection.z]
  have hz : startDirection.z * startDirection.z ≤ 1 := by
    nlinarith [mul_self_nonneg startDirection.y, mul_self_nonneg startDirection.x]
  have hx1 := abs_le_one_iff_mul_self_le_one.mpr hx
  have hz1 := abs_le_one_iff_mul_self_le_one.mpr hz
  rw [abs_le] at hx1 hz1
  refine ⟨?_, ?_, ?_, ?_⟩ <;> norm_num <;> linarith [hx1.1, hx1.2, hz1.1, hz1.2]

/-- C5 fails after one spin from startup whose two clock readings are
`degenerateSin` and `degenerateCos`: the state is reachable, the camera is put
right above the tip of the old direction, `cameraRight` comes out as the zero
vector and the basis is not orthonormal. -/
theorem spin_unequal_readings_not_orthonormal :
    Reachable (step init (Event.spin degenerateSin degenerateCos)) ∧
    (step init (Event.spin degenerateSin degenerateCos)).cameraRight = ⟨0, 0, 0⟩ ∧
    ¬ Vec3.Orthonormal (step init (Event.spin degenerateSin degenerateCos)).cameraDirection
      (step init (Event.spin degenerateSin degenerateCos)).cameraRight
      (step init (Event.spin degenerateSin degenerateCos)).cameraUp := by
  obtain ⟨hx1, hx2, hz1, hz2⟩ := startDirection_components
  have hs : 3.5 * Real.sin degenerateSin = startDirection.x := by
    rw [degenerateSin, Real.sin_arcsin hx1 hx2]
    ring
  have hc : 3.5 * Real.cos degenerateCos = startDirection.z := by
    rw [degenerateCos, Real.cos_arccos hz1 hz2]
    ring
  have hright : (step init (Event.spin degenerateSin degenerateCos)).cameraRight = ⟨0, 0, 0⟩ := by
    show Vec3.normalize (Vec3.cross ⟨0, 1, 0⟩ (Vec3.normalize (Vec3.sub
      (Vec3.add ⟨0, 1, 0⟩ ⟨3.5 * Real.sin degenerateSin, 0, 3.5 * Real.cos degenerateCos⟩)
      startDirection))) = ⟨0, 0, 0⟩
    rw [hs, hc]
    simp [Vec3.normalize, Vec3.cross, Vec3.sub, Vec3.add, Vec3.length, Vec3.dot]
  refine ⟨Reachable.next _ _ Reachable.start, hright, ?_⟩
  intro h
  have h1 := h.2.1
  rw [hright] at h1
  simp [Vec3.length, Vec3.dot] at h1

/-- C5 as the code has it: in every state reached from startup through cursor
moves, scrolls, key and button events, resets, and frames and spins none of
whose spins is degenerate, `cameraDirection`, `cameraRight` and `cameraUp` are
mutually orthonormal; and from such a state no spin whose readings satisfy
`sin² tSin + cos² tCos > 4/49` is degenerate, equal readings included. -/
theorem regular_reachable_orthonormal (s : State) (h : RegularReachable s) :
    Vec3.Orthonormal s.cameraDirection s.cameraRight s.cameraUp ∧
    (∀ t1 t2 : ℝ, 4 / 49 < Real.sin t1 ^ 2 + Real.cos t2 ^ 2 → ¬ spinDegenerate s t1 t2) ∧
    (∀ t : ℝ, ¬ spinDegenerate s t t) :=
  ⟨regularReachable_basis h,
   fun t1 t2 ht => not_spinDegenerate_of_readings s t1 t2 (regularReachable_basis h).1 ht,
   fun t => not_spinDegenerate_of_readings s t t (regularReachable_basis h).1
     (by rw [Real.sin_sq_add_cos_sq]; norm_num)⟩

/-- A scroll, a reset and a spin with readings `π / 2` and `0` are regular
events from startup. -/
theorem regularReachable_example :
    RegularReachable
      (step (step (step init (Event.scroll 0 10)) Event.reset) (Event.spin (Real.pi / 2) 0)) := by
  have h2 : RegularReachable (step (step init (Event.scroll 0 10)) Event.reset) :=
    RegularReachable.next _ _ (RegularReachable.next _ _ RegularReachable.start trivial) trivial
  refine RegularReachable.next _ _ h2 ?_
  exact not_spinDegenerate_of_readings _ _ _ (regularReachable_basis h2).1
    (by rw [Real.sin_pi_div_two, Real.cos_zero]; norm_num)

/-- C5 as amended, at the state after a scroll, a reset and a spin with the
unequal readings `π / 2` and `0`. -/
theorem regular_reachable_orthonormal_witness :
    RegularReachable
      (step (step (step init (Event.scroll 0 10)) Event.reset) (Event.spin (Real.pi / 2) 0)) ∧
    Vec3.Orthonormal
      (step (step (step init (Event.scroll 0 10)) Event.reset)
        (Event.spin (Real.pi / 2) 0)).cameraDirection
      (step (step (step init (Event.scroll 0 10)) Event.reset)
        (Event.spin (Real.pi / 2) 0)).cameraRight
      (step (step (step init (Event.scroll 0 10)) Event.reset)
        (Event.spin (Real.pi / 2) 0)).cameraUp :=
  ⟨regularReachable_example, (regular_reachable_orthonormal _ regularReachable_example).1⟩

/-! ## Model matrices -/

/-- The function `glm::translate` multiplies by `Translate(v)` on the right. -/
theorem translate_eq_mul (m : Mat4) (v : Vec3) : translate m v = m * translationMatrix v := by
  ext r c
  fin_cases c <;>
    simp [translate, translationMatrix, Matrix.mul_apply, Fin.sum_univ_four,
      Matrix.vecHead, Matrix.vecTail]

/-- The function `glm::scale` multiplies by `Scale(v)` on the right. -/
theorem scale_eq_mul (m : Mat4) (v : Vec3) : scale m v = m * scaleMatrix v := by
  ext r c
  fin_cases c <;>
    simp [scale, scaleMatrix, Matrix.mul_apply, Fin.sum_univ_four,
      Matrix.vecHead, Matrix.vecTail]

/-- About the axis `(0, 1, 0)`, `glm::rotate` multiplies by `RotateY(a)` on the
right. -/
theorem rotate_y_eq_mul (m : Mat4) (a : ℝ) : rotate m a ⟨0, 1, 0⟩ = m * rotationY a := by
  ext r c
  fin_cases c <;>
    simp [rotate, rotationY, Matrix.mul_apply, Fin.sum_univ_four, Vec3.normalize, Vec3.length,
      Vec3.dot, Matrix.vecHead, Matrix.vecTail]

/-- About the axis `(1, 0, 0)`, `glm::rotate` multiplies by `RotateX(a)` on the
right. -/
theorem rotate_x_eq_mul (m : Mat4) (a : ℝ) : rotate m a ⟨1, 0, 0⟩ = m * rotationX a := by
  ext r c
  fin_cases c <;>
    simp [rotate, rotationX, Matrix.mul_apply, Fin.sum_univ_four, Vec3.normalize, Vec3.length,
      Vec3.dot, Matrix.vecHead, Matrix.vecTail]

/-- A leg loop body is translate, rotate(Y), scale. -/
theorem legModel_eq (p : Vec3) (a : ℝ) (v : Vec3) :
    legModel p a v = specModel p (a * toRadians) none v := by
  simp only [legModel, specModel, scale_eq_mul, rotate_y_eq_mul, translate_eq_mul, one_mul]

/-- The angle of seat entry 4, `-90 * toRadians`, as a decimal. -/
theorem seat_angle_four : planeRotations3 4 * toRadians = -1.570795 := by
  have h : planeRotations3 4 = -90.0 := rfl
  rw [h]
  norm_num [toRadians, PI]

/-- The sine of `-90 * toRadians` is negative. -/
theorem sin_seat_angle_neg : Real.sin (-1.570795) < 0 := by
  have hpi := Real.pi_gt_three
  exact Real.sin_neg_of_neg_of_neg_pi_lt (by norm_num) (by norm_num; linarith)

/-- Seat entries 4 and 5 are translate, rotate(Y), scale, rotate(X). -/
theorem seatModel_of_ge (i : Fin 6) (h : 4 ≤ i.val) :
    seatModel i = translationMatrix (planePositions5 i) * rotationY (planeRotations3 i * toRadians)
      * scaleMatrix ⟨2.1, 0.45, 2.50⟩ * rotationX (planeRotations3 i * toRadians) := by
  simp only [seatModel, if_pos h, scale_eq_mul, rotate_y_eq_mul, rotate_x_eq_mul,
    translate_eq_mul, one_mul]

/-- C6 fails on seat entry 4 (the top panel): the matrix the frame loop builds
is not `Translate * RotateY * RotateX * Scale`. -/
theorem seatModel_top_ne_specModel :
    seatModel 4 ≠ specModel (planePositions5 4) (planeRotations3 4 * toRadians)
      (some (planeRotations3 4 * toRadians)) ⟨2.1, 0.45, 2.50⟩ := by
  intro h
  rw [seatModel_of_ge 4 (by decide), seat_angle_four] at h
  have e := congrFun (congrFun h 1) 2
  simp [specModel, translationMatrix, rotationY, rotationX, scaleMatrix, Matrix.mul_apply,
    Fin.sum_univ_four, Matrix.vecHead, Matrix.vecTail] at e
  have hs := sin_seat_angle_neg
  rw [Real.sin_neg] at hs
  linarith

/-- C6 as the frame loop has it: every leg entry, seat entries 0 to 3 and
backrest entries 0 and 1 are `Translate * RotateY * Scale`; for the entries
with a rotation about the X axis that rotation is applied after the scale:
seat entries 4 and 5 are `Translate * RotateY * Scale * RotateX`, and backrest
entry 2 is `Translate * RotateY * Scale * RotateX * Scale(0.2, 2.5, 1)`. -/
theorem model_matrix_order :
    (∀ i, backRightLegModel i =
      specModel (planePositions i) (planeRotations i * toRadians) none ⟨0.50, 5.5, 0.50⟩) ∧
    (∀ i, backLeftLegModel i =
      specModel (planePositions2 i) (planeRotations i * toRadians) none ⟨0.50, 5.5, 0.50⟩) ∧
    (∀ i, frontLeftLegModel i =
      specModel (planePositions3 i) (planeRotations i * toRadians) none ⟨0.50, 3.0, 0.50⟩) ∧
    (∀ i, frontRightLegModel i =
      specModel (planePositions4 i) (planeRotations i * toRadians) none ⟨0.50, 3.0, 0.50⟩) ∧
    (∀ i : Fin 6, i.val < 4 → seatModel i =
      specModel (planePositions5 i) (planeRotations3 i * toRadians) none ⟨2.1, 0.45, 2.50⟩) ∧
    (∀ i : Fin 6, 4 ≤ i.val → seatModel i =
      translationMatrix (planePositions5 i) * rotationY (planeRotations3 i * toRadians)
        * scaleMatrix ⟨2.1, 0.45, 2.50⟩ * rotationX (planeRotations3 i * toRadians)) ∧
    (∀ i : Fin 3, i.val < 2 → chairBackModel i =
      specModel (planePositions6 i) (planeRotations2 i * toRadians) none ⟨2.5, 1.85, 1.0⟩) ∧
    (∀ i : Fin 3, 2 ≤ i.val → chairBackModel i =
      translationMatrix (planePositions6 i) * rotationY (planeRotations2 i * toRadians)
        * scaleMatrix ⟨2.5, 1.85, 1.0⟩ * rotationX (planeRotations2 i * toRadians)
        * scaleMatrix ⟨0.20, 2.5, 1.0⟩) := by
  refine ⟨fun i => legModel_eq _ _ _, fun i => legModel_eq _ _ _, fun i => legModel_eq _ _ _,
    fun i => legModel_eq _ _ _, ?_, seatModel_of_ge, ?_, ?_⟩
  · intro i hi
    simp only [seatModel, if_neg (not_le.mpr hi), specModel, scale_eq_mul, rotate_y_eq_mul,
      translate_eq_mul, one_mul]
  · intro i hi
    simp only [chairBackModel, if_neg (not_le.mpr hi), specModel, scale_eq_mul, rotate_y_eq_mul,
      translate_eq_mul, one_mul]
  · intro i hi
    simp only [chairBackModel, if_pos hi, scale_eq_mul, rotate_y_eq_mul, rotate_x_eq_mul,
      translate_eq_mul, one_mul]

/-! ## Translation component -/

/-- The translation component is untouched by `glm::rotate`. -/
theorem translationPart_rotate (m : Mat4) (a : ℝ) (v : Vec3) :
    translationPart (rotate m a v) = translationPart m := by
  simp [translationPart, rotate]

/-- The translation component is untouched by `glm::scale`. -/
theorem translationPart_scale (m : Mat4) (v : Vec3) :
    translationPart (scale m v) = translationPart m := by
  simp [translationPart, scale]

/-- Translating the identity sets the translation component to the vector. -/
theorem translationPart_translate_one (v : Vec3) : translationPart (translate 1 v) = v := by
  simp [translationPart, translate]

/-- The translation component of a leg model matrix is the table position. -/
theorem translationPart_legModel (p : Vec3) (a : ℝ) (v : Vec3) :
    translationPart (legModel p a v) = p := by
  simp only [legModel, translationPart_scale, translationPart_rotate,
    translationPart_translate_one]

/-- C7: for every part list and every entry, the translation component of the
model matrix is the table position, whatever rotations and scales follow; the
four model matrices of the back right leg are pairwise distinct. -/
theorem translationPart_eq_position :
    (∀ i, translationPart (backRightLegModel i) = planePositions i) ∧
    (∀ i, translationPart (backLeftLegModel i) = planePositions2 i) ∧
    (∀ i, translationPart (frontLeftLegModel i) = planePositions3 i) ∧
    (∀ i, translationPart (frontRightLegModel i) = planePositions4 i) ∧
    (∀ i, translationPart (seatModel i) = planePositions5 i) ∧
    (∀ i, translationPart (chairBackModel i) = planePositions6 i) ∧
    (∀ i j, i ≠ j → backRightLegModel i ≠ backRightLegModel j) := by
  refine ⟨fun i => translationPart_legModel _ _ _, fun i => translationPart_legModel _ _ _,
    fun i => translationPart_legModel _ _ _, fun i => translationPart_legModel _ _ _, ?_, ?_, ?_⟩
  · intro i
    simp only [seatModel]
    split_ifs <;>
      simp only [translationPart_scale, translationPart_rotate, translationPart_translate_one]
  · intro i
    simp only [chairBackModel]
    split_ifs <;>
      simp only [translationPart_scale, translationPart_rotate, translationPart_translate_one]
  · intro i j hij h
    have e := congrArg translationPart h
    simp only [backRightLegModel, translationPart_legModel] at e
    have ex := congrArg Vec3.x e
    have ez := congrArg Vec3.z e
    fin_cases i <;> fin_cases j <;> simp [planePositions] at hij ex ez <;> norm_num at ex ez

/-! ## Reset -/

/-- C8: applying `initiateCamera` twice in a row gives the same
`cameraPosition` and `target` as applying it once, and both are the fixed
defaults `(0, 1, 4)` and `(-0.375, 0.5, 0.4)`. -/
theorem initiateCamera_idempotent (s : State) :
    (initiateCamera (initiateCamera s)).cameraPosition = (initiateCamera s).cameraPosition ∧
    (initiateCamera (initiateCamera s)).target = (initiateCamera s).target ∧
    (initiateCamera s).cameraPosition = ⟨0, 1, 4⟩ ∧
    (initiateCamera s).target = ⟨-0.375, 0.5, 0.4⟩ :=
  ⟨rfl, rfl, rfl, rfl⟩

/-- C9 fails after a scroll of 10 from startup: the state is reachable, its
`fov` is 44.9, and `initiateCamera` leaves it at 44.9 while the startup value
is 45. -/
theorem initiateCamera_fov_not_reset :
    Reachable (step init (Event.scroll 0 10)) ∧
    (initiateCamera (step init (Event.scroll 0 10))).fov = 44.9 ∧
    init.fov = 45 ∧
    (initiateCamera (step init (Event.scroll 0 10))).fov ≠ init.fov := by
  have h : (initiateCamera (step init (Event.scroll 0 10))).fov = 44.9 := by
    show (scroll_callback init 0 10).fov = 44.9
    rw [scroll_callback_fov_of_mem init 0 10 (by norm_num [init]) (by norm_num [init])]
    norm_num [clamp, init]
  have h0 : init.fov = 45 := by norm_num [init]
  refine ⟨Reachable.next _ _ Reachable.start, h, h0, ?_⟩
  rw [h, h0]
  norm_num

/-- C9 as the code has it: `initiateCamera` puts `cameraPosition`, `target`,
`worldUp` and `CameraFront` back to their startup values and leaves `fov`,
`rawYaw`, `rawPitch`, `degYaw` and `degPitch` as they were. -/
theorem initiateCamera_restores (s : State) :
    (initiateCamera s).cameraPosition = init.cameraPosition ∧
    (initiateCamera s).target = init.target ∧
    (initiateCamera s).worldUp = init.worldUp ∧
    (initiateCamera s).CameraFront = init.CameraFront ∧
    (initiateCamera s).fov = s.fov ∧
    (initiateCamera s).rawYaw = s.rawYaw ∧
    (initiateCamera s).rawPitch = s.rawPitch ∧
    (initiateCamera s).degYaw = s.degYaw ∧
    (initiateCamera s).degPitch = s.degPitch :=
  ⟨rfl, rfl, rfl, rfl, rfl, rfl, rfl, rfl, rfl⟩

/-! ## Spin -/

/-- C10 fails for the spin from startup whose clock readings are `0` under
`sin` and `π / 2` under `cos`: the state is reachable and the camera is at the
center `(0, 1, 0)` itself, at distance 0 from it and not 3.5. -/
theorem spin_unequal_readings_off_circle :
    Reachable (step init (Event.spin 0 (Real.pi / 2))) ∧
    (step init (Event.spin 0 (Real.pi / 2))).cameraPosition = ⟨0, 1, 0⟩ ∧
    Vec3.distance (step init (Event.spin 0 (Real.pi / 2))).cameraPosition ⟨0, 1, 0⟩ ≠ 3.5 := by
  have hp : (step init (Event.spin 0 (Real.pi / 2))).cameraPosition = ⟨0, 1, 0⟩ := by
    show Vec3.add ⟨0, 1, 0⟩ ⟨3.5 * Real.sin 0, 0, 3.5 * Real.cos (Real.pi / 2)⟩ = ⟨0, 1, 0⟩
    simp [Vec3.add]
  refine ⟨Reachable.next _ _ Reachable.start, hp, ?_⟩
  rw [hp]
  simp only [Vec3.distance, Vec3.length, Vec3.dot, Vec3.sub, sub_self, mul_zero, add_zero,
    Real.sqrt_zero]
  norm_num

/-- C10 as the code has it: with clock readings `tSin` and `tCos`, `spinCamera`
puts `cameraPosition` at `center + (3.5 * sin tSin, 0, 3.5 * cos tCos)` with
center `(0, 1, 0)` and `target` at the default target, so the position is in
the plane `y = 1`; when both readings are the same `t` it is at distance 3.5
from the center; and the positions at readings `(tSin, tCos)` and
`(tSin + 2π, tCos + 2π)` have the same X and Z offsets from the center, from
whatever states the spins start. -/
theorem spinCamera_position (s : State) (tSin tCos : ℝ) :
    (spinCamera s tSin tCos).cameraPosition =
      Vec3.add ⟨0, 1, 0⟩ ⟨3.5 * Real.sin tSin, 0, 3.5 * Real.cos tCos⟩ ∧
    (spinCamera s tSin tCos).target = defaultTarget ∧
    (spinCamera s tSin tCos).cameraPosition.y = 1 ∧
    (∀ t : ℝ,
      (spinCamera s t t).cameraPosition =
        Vec3.add ⟨0, 1, 0⟩ (Vec3.smul 3.5 ⟨Real.sin t, 0, Real.cos t⟩) ∧
      Vec3.distance (spinCamera s t t).cameraPosition ⟨0, 1, 0⟩ = 3.5) ∧
    (∀ u : State,
      (spinCamera u (tSin + 2 * Real.pi) (tCos + 2 * Real.pi)).cameraPosition.x - 0 =
        (spinCamera s tSin tCos).cameraPosition.x - 0 ∧
      (spinCamera u (tSin + 2 * Real.pi) (tCos + 2 * Real.pi)).cameraPosition.z - 0 =
        (spinCamera s tSin tCos).cameraPosition.z - 0) := by
  refine ⟨rfl, rfl, ?_, ?_, ?_⟩
  · simp [spinCamera, Vec3.add]
  · intro t
    constructor
    · simp [spinCamera, Vec3.add, Vec3.smul]
    · have h := Real.sin_sq_add_cos_sq t
      have key : (0 + 3.5 * Real.sin t - 0) * (0 + 3.5 * Real.sin t - 0)
          + (1 + 0 - 1) * (1 + 0 - 1)
          + (0 + 3.5 * Real.cos t - 0) * (0 + 3.5 * Real.cos t - 0) = (3.5 : ℝ) ^ 2 := by
        linear_combination (3.5 : ℝ) ^ 2 * h
      simp only [spinCamera, Vec3.distance, Vec3.length, Vec3.dot, Vec3.sub, Vec3.add]
      rw [key, Real.sqrt_sq (by norm_num)]
  · intro u
    simp [spinCamera, Vec3.add, Real.sin_add_two_pi, Real.cos_add_two_pi]

/-! ## First cursor move -/

/-- C11: on the first cursor move after startup (`firstMouseMove` true), at any
`(x, y)` and whether or not orbiting is active, the callback seeds
`lastX, lastY` from the event and computes no delta: `xChange = yChange = 0`,
`rawYaw` and `rawPitch` are unchanged, and `firstMouseMove` becomes false. -/
theorem cursor_position_callback_first (s : State) (x y : ℝ)
    (hfirst : s.firstMouseMove = true) :
    (cursor_position_callback s x y).lastX = x ∧
    (cursor_position_callback s x y).lastY = y ∧
    (cursor_position_callback s x y).xChange = 0 ∧
    (cursor_position_callback s x y).yChange = 0 ∧
    (cursor_position_callback s x y).rawYaw = s.rawYaw ∧
    (cursor_position_callback s x y).rawPitch = s.rawPitch ∧
    (cursor_position_callback s x y).firstMouseMove = false := by
  simp only [cursor_position_callback, hfirst, if_true, sub_self, add_zero]
  split_ifs <;> exact ⟨rfl, rfl, rfl, rfl, rfl, rfl, rfl⟩

/-- No event before the first cursor move clears `firstMouseMove`: it is still
true in `orbitingStart`. -/
theorem orbitingStart_firstMouseMove : orbitingStart.firstMouseMove = true := by
  simp [orbitingStart, run, step, TransformCamera, key_callback, mouse_button_callback, init,
    GLFW_KEY_LEFT_ALT, GLFW_PRESS, GLFW_MOUSE_BUTTON_LEFT, GLFW_KEY_F, GLFW_KEY_S]

/-- C11 at `orbitingStart` (orbiting active) with the move to `(100, 50)`. -/
theorem cursor_position_callback_first_witness :
    orbitingStart.firstMouseMove = true ∧ orbitingStart.isOrbiting = true ∧
    (cursor_position_callback orbitingStart 100 50).lastX = 100 ∧
    (cursor_position_callback orbitingStart 100 50).xChange = 0 ∧
    (cursor_position_callback orbitingStart 100 50).rawYaw = orbitingStart.rawYaw :=
  ⟨orbitingStart_firstMouseMove, orbitingStart_isOrbiting,
   (cursor_position_callback_first orbitingStart 100 50 orbitingStart_firstMouseMove).1,
   (cursor_position_callback_first orbitingStart 100 50 orbitingStart_firstMouseMove).2.2.1,
   (cursor_position_callback_first orbitingStart 100 50 orbitingStart_firstMouseMove).2.2.2.2.1⟩

/-! ## When orbiting is active -/

/-- Only a frame writes `isOrbiting`. -/
theorem step_isOrbiting (s : State) (e : Event) (h : Event.isFrame e = false) :
    (step s e).isOrbiting = s.isOrbiting := by
  cases e with
  | key k a => rfl
  | mouseButton b a => rfl
  | cursor x y => exact cursor_position_callback_isOrbiting s x y
  | scroll x y => rfl
  | frame t1 t2 => simp [Event.isFrame] at h
  | reset => rfl
  | spin t1 t2 => rfl

/-- Events other than frames leave `isOrbiting` as it was. -/
theorem run_isOrbiting (es : List Event) (s : State)
    (h : ∀ e ∈ es, Event.isFrame e = false) : (run s es).isOrbiting = s.isOrbiting := by
  induction es generalizing s with
  | nil => rfl
  | cons e es ih =>
    show (run (step s e) es).isOrbiting = s.isOrbiting
    rw [ih (step s e) (fun e1 h1 => h e1 (List.mem_cons_of_mem e h1)),
      step_isOrbiting s e (h e (List.mem_cons_self e es))]

/-- The function `TransformCamera` sets `isOrbiting` to whether both inputs are
held when it runs. -/
theorem TransformCamera_isOrbiting (s : State) (t1 t2 : ℝ) :
    (TransformCamera s t1 t2).isOrbiting = bothHeld s := by
  simp only [TransformCamera, bothHeld]
  split_ifs <;> rfl

/-- With `isOrbiting` false a cursor move leaves yaw, pitch and the camera
position alone. -/
theorem cursor_position_callback_of_not_orbiting (s : State) (x y : ℝ)
    (h : s.isOrbiting = false) :
    (cursor_position_callback s x y).rawYaw = s.rawYaw ∧
    (cursor_position_callback s x y).rawPitch = s.rawPitch ∧
    (cursor_position_callback s x y).cameraPosition = s.cameraPosition := by
  simp only [cursor_position_callback, h, Bool.false_eq_true, if_false, and_self]

/-- The state `heldBeforeFrame` is reachable. -/
theorem reachable_heldBeforeFrame : Reachable heldBeforeFrame :=
  reachable_run _ init Reachable.start

/-- C12 fails in `heldBeforeFrame`: left alt and the left button are both held
when the cursor move to `(420, 240)` is delivered, yet `isOrbiting` is still
false and the move changes neither `rawYaw` nor `cameraPosition`. -/
theorem held_but_not_orbiting :
    Reachable heldBeforeFrame ∧ bothHeld heldBeforeFrame = true ∧
    heldBeforeFrame.isOrbiting = false ∧
    (cursor_position_callback heldBeforeFrame 420 240).xChange = 100 ∧
    (cursor_position_callback heldBeforeFrame 420 240).rawYaw = heldBeforeFrame.rawYaw ∧
    (cursor_position_callback heldBeforeFrame 420 240).cameraPosition =
      heldBeforeFrame.cameraPosition := by
  have hb : bothHeld heldBeforeFrame = true := by
    simp [bothHeld, heldBeforeFrame, run, step, cursor_position_callback, key_callback,
      mouse_button_callback, init, GLFW_KEY_LEFT_ALT, GLFW_PRESS, GLFW_MOUSE_BUTTON_LEFT]
  have ho : heldBeforeFrame.isOrbiting = false := by
    rw [heldBeforeFrame, run_isOrbiting _ _ (by simp [Event.isFrame])]
    rfl
  have hx : (cursor_position_callback heldBeforeFrame 420 240).xChange = 100 := by
    simp [heldBeforeFrame, run, step, cursor_position_callback, key_callback,
      mouse_button_callback, init]
    norm_num
  have hn := cursor_position_callback_of_not_orbiting heldBeforeFrame 420 240 ho
  exact ⟨reachable_heldBeforeFrame, hb, ho, hx, hn.1, hn.2.2⟩

/-- C12 as the code has it: `isOrbiting` is whether left alt and the left
button were both held when `TransformCamera` last ran, and key, button, cursor
and scroll events delivered since do not change it; a cursor move applies the
orbit update exactly when that flag is set. -/
theorem isOrbiting_sampled_per_frame (s : State) (t1 t2 : ℝ) (es : List Event)
    (hes : ∀ e ∈ es, Event.isFrame e = false) :
    (run (step s (Event.frame t1 t2)) es).isOrbiting = bothHeld s ∧
    (∀ x y : ℝ, bothHeld s = true →
      (cursor_position_callback (run (step s (Event.frame t1 t2)) es) x y).rawYaw =
        (run (step s (Event.frame t1 t2)) es).rawYaw +
          (cursor_position_callback (run (step s (Event.frame t1 t2)) es) x y).xChange ∧
      (cursor_position_callback (run (step s (Event.frame t1 t2)) es) x y).rawPitch =
        (run (step s (Event.frame t1 t2)) es).rawPitch +
          (cursor_position_callback (run (step s (Event.frame t1 t2)) es) x y).yChange ∧
      (cursor_position_callback (run (step s (Event.frame t1 t2)) es) x y).cameraPosition =
        ⟨(run (step s (Event.frame t1 t2)) es).target.x + (run (step s (Event.frame t1 t2)) es).radius *
            Real.cos (cursor_position_callback (run (step s (Event.frame t1 t2)) es) x y).degPitch *
            Real.sin (cursor_position_callback (run (step s (Event.frame t1 t2)) es) x y).degYaw,
         (run (step s (Event.frame t1 t2)) es).target.y + (run (step s (Event.frame t1 t2)) es).radius *
            Real.sin (cursor_position_callback (run (step s (Event.frame t1 t2)) es) x y).degPitch,
         (run (step s (Event.frame t1 t2)) es).target.z + (run (step s (Event.frame t1 t2)) es).radius *
            Real.cos (cursor_position_callback (run (step s (Event.frame t1 t2)) es) x y).degPitch *
            Real.cos (cursor_position_callback (run (step s (Event.frame t1 t2)) es) x y).degYaw⟩) ∧
    (∀ x y : ℝ, bothHeld s = false →
      (cursor_position_callback (run (step s (Event.frame t1 t2)) es) x y).rawYaw =
        (run (step s (Event.frame t1 t2)) es).rawYaw ∧
      (cursor_position_callback (run (step s (Event.frame t1 t2)) es) x y).rawPitch =
        (run (step s (Event.frame t1 t2)) es).rawPitch ∧
      (cursor_position_callback (run (step s (Event.frame t1 t2)) es) x y).cameraPosition =
        (run (step s (Event.frame t1 t2)) es).cameraPosition) := by
  have hflag : (run (step s (Event.frame t1 t2)) es).isOrbiting = bothHeld s := by
    rw [run_isOrbiting es _ hes]
    exact TransformCamera_isOrbiting s t1 t2
  refine ⟨hflag, ?_, ?_⟩
  · intro x y hb
    rw [hb] at hflag
    rw [cursor_position_callback_of_orbiting _ x y hflag]
    exact ⟨rfl, rfl, rfl⟩
  · intro x y hb
    rw [hb] at hflag
    exact cursor_position_callback_of_not_orbiting _ x y hflag

/-- C12 as amended, at the startup state with both inputs going down after the
frame: the flag stays false. -/
theorem isOrbiting_sampled_per_frame_witness :
    (∀ e ∈ [Event.key GLFW_KEY_LEFT_ALT GLFW_PRESS,
        Event.mouseButton GLFW_MOUSE_BUTTON_LEFT GLFW_PRESS], Event.isFrame e = false) ∧
    (run (step init (Event.frame 0 0)) [Event.key GLFW_KEY_LEFT_ALT GLFW_PRESS,
        Event.mouseButton GLFW_MOUSE_BUTTON_LEFT GLFW_PRESS]).isOrbiting = bothHeld init :=
  ⟨by simp [Event.isFrame],
   (isOrbiting_sampled_per_frame init 0 0 _ (by simp [Event.isFrame])).1⟩

/-! ## The camera position does not feed the orbit update -/

/-- C13: while orbiting, the `cameraPosition` a cursor move leaves is computed
from `target`, `radius`, `rawYaw`, `rawPitch`, `lastX`, `lastY` (with
`firstMouseMove`, which says whether `lastX, lastY` are read) and the event
coordinates: two orbiting states that agree on those, whatever their current
`cameraPosition`, end with the same `cameraPosition` after the same event. -/
theorem cursor_position_callback_position_independent (s1 s2 : State) (x y : ℝ)
    (h1 : s1.isOrbiting = true) (h2 : s2.isOrbiting = true)
    (htarget : s1.target = s2.target) (hradius : s1.radius = s2.radius)
    (hyaw : s1.rawYaw = s2.rawYaw) (hpitch : s1.rawPitch = s2.rawPitch)
    (hlastX : s1.lastX = s2.lastX) (hlastY : s1.lastY = s2.lastY)
    (hfirst : s1.firstMouseMove = s2.firstMouseMove) :
    (cursor_position_callback s1 x y).cameraPosition =
      (cursor_position_callback s2 x y).cameraPosition := by
  rw [cursor_position_callback_of_orbiting s1 x y h1,
    cursor_position_callback_of_orbiting s2 x y h2]
  simp only [htarget, hradius, hyaw, hpitch, hlastX, hlastY, hfirst]

/-- The target of `orbitingMoved` is the default target. -/
theorem orbitingMoved_target : orbitingMoved.target = ⟨-0.375, 0.5, 0.4⟩ := by
  simp [orbitingMoved, orbitingStart, run, step, TransformCamera, cursor_position_callback,
    key_callback, mouse_button_callback, init, defaultTarget, GLFW_KEY_LEFT_ALT, GLFW_PRESS,
    GLFW_MOUSE_BUTTON_LEFT, GLFW_KEY_F, GLFW_KEY_S]

/-- C13 at `orbitingMoved` against the same state after a spin at elapsed
time 1 (which moved the camera): the move to `(420, 240)` leaves both at the
same place. -/
theorem cursor_position_callback_position_independent_witness :
    orbitingMoved.isOrbiting = true ∧ (spinCamera orbitingMoved 1 1).isOrbiting = true ∧
    orbitingMoved.target = (spinCamera orbitingMoved 1 1).target ∧
    (cursor_position_callback orbitingMoved 420 240).cameraPosition =
      (cursor_position_callback (spinCamera orbitingMoved 1 1) 420 240).cameraPosition :=
  ⟨orbitingMoved_isOrbiting, orbitingMoved_isOrbiting, orbitingMoved_target,
   cursor_position_callback_position_independent orbitingMoved (spinCamera orbitingMoved 1 1)
     420 240 orbitingMoved_isOrbiting orbitingMoved_isOrbiting orbitingMoved_target
     rfl rfl rfl rfl rfl rfl⟩

end

end ChairCamera
